import Mathlib

/-!
Shallow embedding of the session-scoped file store, candidate assembly and
verification orchestration of `src/src/server/controllers/VerificationController.ts`
(ethereum-sourcify server).  JavaScript objects used as string-keyed maps are
embedded as insertion-ordered association lists; the two external collaborators
(the validation service and the verification service) and the base64 codec are
abstracted as an environment of functions; `async`/`await` with `try`/`catch`
becomes explicit `Except` plumbing.  `undefined` maps are identified with empty
maps (the source initialises them with `{}` / `||= {}` before every use).
-/

set_option autoImplicit false

namespace Sourcify

/-! ### JavaScript-object association lists -/

/-- `obj[k]`: first-match lookup in an insertion-ordered string-keyed map. -/
def objGet {α : Type} : List (String × α) → String → Option α
  | [], _ => none
  | (k', v) :: rest, k => if k' = k then some v else objGet rest k

/-- `k in obj`. -/
def hasKey {α : Type} (m : List (String × α)) (k : String) : Bool :=
  (objGet m k).isSome

/-- `obj[k] = v`: update in place if the key exists, else append (JS key order). -/
def objSet {α : Type} : List (String × α) → String → α → List (String × α)
  | [], k, v => [(k, v)]
  | (k', v') :: rest, k, v =>
    if k' = k then (k, v) :: rest else (k', v') :: objSet rest k v

/-- Append an element unless already present (JS object key collection). -/
def insertIfAbsent (l : List String) (x : String) : List String :=
  if x ∈ l then l else l ++ [x]

/-- JS truthiness of an optional string: `undefined` and `""` are falsy. -/
def truthyStr : Option String → Bool
  | none => false
  | some s => !(s = "")

/-- `match.status || "error"` (line 681). -/
def statusOrError : Option String → String
  | none => "error"
  | some s => if s = "" then "error" else s

/-- Whether an `Except` result is a success. -/
def exceptIsOk {ε α : Type} : Except ε α → Bool
  | .ok _ => true
  | .error _ => false

/-! ### Data model -/

/-- `PathContent` (@ethereum-sourcify/core): a file path with base64 content. -/
structure PathContent where
  path : String
  content : String
deriving DecidableEq

/-- `PathBuffer` (@ethereum-sourcify/core): a file path with raw byte content. -/
structure PathBuffer where
  path : String
  buffer : String
deriving DecidableEq

/-- `Match` (@ethereum-sourcify/core): a verification verdict. -/
structure Match where
  status : Option String
  address : Option String
  message : Option String
  storageTimestamp : Option Nat
deriving DecidableEq

/-- The status of a primary verification result, `none` when the call threw. -/
def okStatus (r : Except String Match) : Option (Option String) :=
  match r with
  | .ok m => some m.status
  | .error _ => none

/-- `CheckedContract` (@ethereum-sourcify/core): `solidity` maps resolved source
paths to contents, `missing` and `invalid` are sets of source paths. -/
structure CheckedContract where
  name : String
  compilerVersion : Option String
  metadataRaw : String
  solidity : List (String × String)
  missing : List String
  invalid : List String
deriving DecidableEq

/-- `ContractWrapper` (VerificationController-util): a contract candidate with
its verification target and last verification outcome. -/
structure ContractWrapper where
  contract : CheckedContract
  address : Option String := none
  chainId : Option String := none
  status : Option String := none
  statusMessage : Option String := none
  storageTimestamp : Option Nat := none
deriving DecidableEq

/-- One entry of `req.body.contracts` received by `verifyValidatedEndpoint`. -/
structure SendableContract where
  verificationId : String
  address : Option String
  chainId : Option String
deriving DecidableEq

/-- `InputData` (@ethereum-sourcify/core) handed to `verificationService.inject`. -/
structure InputData where
  addresses : List (Option String)
  chain : Option String
  contract : CheckedContract
deriving DecidableEq

/-- `MySession`: the per-user session state (`inputFiles` keyed by content id,
`contractWrappers` keyed by candidate id, plus the unused-file report). -/
structure MySession where
  inputFiles : List (String × PathContent)
  contractWrappers : List (String × ContractWrapper)
  unusedSources : List String
deriving DecidableEq

/-- A fresh session. -/
def emptySession : MySession := ⟨[], [], []⟩

/-- The external collaborators of the controller: the validation service, the
verification service, `CheckedContract` statics, and the base64 codec. -/
structure Env where
  /-- `CheckedContract.isValid`. -/
  isValid : CheckedContract → Bool
  /-- `CheckedContract.fetchMissing`: best-effort resolution of missing sources. -/
  fetchMissing : CheckedContract → Except String CheckedContract
  /-- `verificationService.findByAddress`: synchronous read of stored matches. -/
  findByAddress : Option String → Option String → List Match
  /-- `verificationService.findAllByAddress`, which may throw. -/
  findAllByAddress : String → String → Except String (List Match)
  /-- `verificationService.inject`: the external verification call. -/
  inject : InputData → Except String Match
  /-- `validationService.useAllSources`: expand a contract with the full file set. -/
  useAllSources : CheckedContract → List PathBuffer → Except String CheckedContract
  /-- `validationService.checkFiles`: contracts plus the unused-path out-parameter. -/
  checkFiles : List PathBuffer → Except String (List CheckedContract × List String)
  /-- `buffer.toString("base64")`. -/
  encode : String → String
  /-- `Buffer.from(content, "base64")`. -/
  decode : String → String

/-! ### Definitions modelled from the spec (VerificationController-util is not
part of the provided source tree; only its call sites are). -/

/-- Modelled from the spec: `generateId` (VerificationController-util) is "a
deterministic hash of content"; it is modelled as the identity embedding of the
content, a deterministic and collision-free digest. -/
def generateId (content : String) : String := content

/-- Modelled from the spec: `isVerifiable` (VerificationController-util) — a
candidate is verifiable iff `missingSources` is empty AND both `address` and
`chainId` are set AND `compilerVersion` is present. -/
def isVerifiable (cw : ContractWrapper) : Bool :=
  cw.contract.missing.isEmpty && truthyStr cw.address && truthyStr cw.chainId
    && cw.contract.compilerVersion.isSome

/-- Modelled from the spec: `updateUnused` (VerificationController-util) — the
session "tracks these separately so users can be told which uploads were
ignored"; each assembly pass reports the unused paths of the whole batch, so the
session's unused-file list is replaced by the given paths. -/
def updateUnused (unused : List String) (session : MySession) : MySession :=
  { session with unusedSources := unused }

/-! ### ContentAddressedFileStore: `saveFiles` (lines 729-758) -/

/-- `MAX_SESSION_SIZE = 50 * 1024 * 1024` (line 58). -/
def MAX_SESSION_SIZE : Nat := 50 * 1024 * 1024

/-- The `PayloadTooLargeError` message of the size check (lines 743-744). -/
def capacityMsg : String :=
  "Too much session memory used. Delete some files or clear the session."

/-- Total base64 size of the files already in the session (lines 735-738). -/
def sessionSize (files : List (String × PathContent)) : Nat :=
  files.foldl (fun n kv => n + kv.2.content.length) 0

/-- Total base64 size of an incoming batch (line 740). -/
def batchSize (pathContents : List PathContent) : Nat :=
  pathContents.foldl (fun n pc => n + pc.content.length) 0

/-- The dedup/insertion loop of `saveFiles` (lines 749-755): a file whose
content id is already present is skipped, otherwise it is inserted and counted. -/
def saveFilesLoop :
    List PathContent → List (String × PathContent) → Nat →
    List (String × PathContent) × Nat
  | [], files, count => (files, count)
  | pc :: rest, files, count =>
    let newId := generateId pc.content
    if hasKey files newId then saveFilesLoop rest files count
    else saveFilesLoop rest (objSet files newId pc) (count + 1)

/-- `saveFiles` (lines 729-758).  The size check sums the stored files and the
whole incoming batch and throws `PayloadTooLargeError` before any insertion;
otherwise the dedup loop runs and the count of newly added files is returned.
The thrown case returns the untouched session alongside the error. -/
def saveFiles (pathContents : List PathContent) (session : MySession) :
    MySession × Except String Nat :=
  let inputSize :=
    pathContents.foldl (fun n pc => n + pc.content.length)
      (sessionSize session.inputFiles)
  if inputSize > MAX_SESSION_SIZE then
    (session, .error capacityMsg)
  else
    let fc := saveFilesLoop pathContents session.inputFiles 0
    ({ session with inputFiles := fc.1 }, .ok fc.2)

/-! ### CandidateAssembler: `validateContracts` (lines 548-593) -/

/-- The session's files as `PathBuffer`s (lines 549-556 and 651-656): each
stored base64 content is decoded back to raw bytes. -/
def sessionPathBuffers (env : Env) (files : List (String × PathContent)) :
    List PathBuffer :=
  files.map (fun kv => { path := kv.2.path, buffer := env.decode kv.2.content })

/-- The merge of a new assembly pass into an existing candidate (lines 574-583).
The source first copies every newly resolved path into the old candidate's
`solidity` and deletes it from the old `missing` (lines 575-579), then
reassigns both fields wholesale to the new candidate's objects (lines 580-583),
which discards the effect of the copy loop. -/
def mergeWrapper (oldW newW : ContractWrapper) : ContractWrapper :=
  let loopSolidity :=
    newW.contract.solidity.foldl (fun s pv => objSet s pv.1 pv.2)
      oldW.contract.solidity
  let loopMissing :=
    newW.contract.solidity.foldl (fun m pv => m.erase pv.1)
      oldW.contract.missing
  let _ := (loopSolidity, loopMissing)
  { oldW with
      contract := { oldW.contract with
        solidity := newW.contract.solidity,
        missing := newW.contract.missing } }

/-- `newPendingContracts` (lines 565-568): key each returned contract by the id
of its raw metadata. -/
def newPendingContracts (contracts : List CheckedContract) :
    List (String × ContractWrapper) :=
  contracts.foldl
    (fun acc c => objSet acc (generateId c.metadataRaw) { contract := c }) []

/-- The merge/insert loop over `newPendingContracts` (lines 571-587). -/
def mergeNewContracts (pending wrappers : List (String × ContractWrapper)) :
    List (String × ContractWrapper) :=
  pending.foldl
    (fun ws kv =>
      match objGet ws kv.1 with
      | some oldW => objSet ws kv.1 (mergeWrapper oldW kv.2)
      | none => objSet ws kv.1 kv.2)
    wrappers

/-- `validateContracts` (lines 548-593): run the validation service over every
session file; merge the produced candidates into the session's wrapper map and
record the unused paths; if `checkFiles` throws, record every batch path as
unused and leave the wrapper map untouched. -/
def validateContracts (env : Env) (session : MySession) : MySession :=
  let pathBuffers := sessionPathBuffers env session.inputFiles
  match env.checkFiles pathBuffers with
  | .ok cu =>
    let wrappers := mergeNewContracts (newPendingContracts cu.1)
      session.contractWrappers
    updateUnused cu.2 { session with contractWrappers := wrappers }
  | .error _ =>
    updateUnused (pathBuffers.map (fun pb => pb.path)) session

/-! ### VerificationOrchestrator: `verifyValidated` (lines 620-698) -/

/-- `checkAndFetchMissing` (lines 687-698): when the contract is not yet valid,
attempt a best-effort fetch of missing sources; a fetch failure is logged and
leaves the contract unchanged. -/
def checkAndFetchMissing (env : Env) (contract : CheckedContract) :
    CheckedContract :=
  if env.isValid contract then contract
  else
    match env.fetchMissing contract with
    | .ok fetched => fetched
    | .error _ => contract

/-- Record a match on the wrapper (lines 681-683). -/
def recordMatch (cw : ContractWrapper) (m : Match) : ContractWrapper :=
  { cw with
      status := some (statusOrError m.status),
      statusMessage := m.message,
      storageTimestamp := m.storageTimestamp }

/-- The `InputData` of the primary verification attempt for a wrapper
(lines 632-636), built after the missing-source fetch. -/
def primaryInputData (env : Env) (cw : ContractWrapper) : InputData :=
  { addresses := [cw.address],
    chain := cw.chainId,
    contract := checkAndFetchMissing env cw.contract }

/-- The error match built by the `catch` block (lines 674-678). -/
def errorMatch (msg : String) : Match :=
  { status := none, address := none, message := some msg,
    storageTimestamp := none }

/-- One iteration of the `verifyValidated` loop (lines 624-684) for a single
wrapper, returning the updated wrapper and the number of calls made to
`verificationService.inject`.  Control flow: fetch missing sources, re-check the
gate, consult the store of confirmed matches, otherwise run the primary inject
and — only on `extra-file-input-bug` — one expanded retry, whose result is
adopted only when it is `perfect` or `partial`; any throw inside the `try`
yields an error match. -/
def verifyOne (env : Env) (sessionFiles : List (String × PathContent))
    (cw : ContractWrapper) : ContractWrapper × Nat :=
  let cw := { cw with contract := checkAndFetchMissing env cw.contract }
  if !isVerifiable cw then (cw, 0)
  else
    let inputData : InputData :=
      { addresses := [cw.address], chain := cw.chainId, contract := cw.contract }
    let found := env.findByAddress cw.address cw.chainId
    match found with
    | m :: _ => (recordMatch cw m, 0)
    | [] =>
      match env.inject inputData with
      | .error e => (recordMatch cw (errorMatch e), 1)
      | .ok m =>
        if m.status = some "extra-file-input-bug" then
          let pathBufferInputFiles := sessionPathBuffers env sessionFiles
          match env.useAllSources cw.contract pathBufferInputFiles with
          | .error e => (recordMatch cw (errorMatch e), 1)
          | .ok contractWithAllSources =>
            match env.inject { inputData with contract := contractWithAllSources } with
            | .error e => (recordMatch cw (errorMatch e), 2)
            | .ok tempMatch =>
              let m :=
                if tempMatch.status = some "perfect"
                    ∨ tempMatch.status = some "partial" then tempMatch else m
              (recordMatch cw m, 2)
        else (recordMatch cw m, 1)

/-- `verifyValidated` over a list of wrapper ids aliased into the session:
each wrapper is processed by `verifyOne` and written back (the source mutates
the session's wrapper objects through the passed map).  Also returns the total
number of `inject` calls. -/
def verifyValidatedOn (env : Env) :
    List String → MySession → MySession × Nat
  | [], session => (session, 0)
  | id :: rest, session =>
    match objGet session.contractWrappers id with
    | none => verifyValidatedOn env rest session
    | some cw =>
      let r := verifyOne env session.inputFiles cw
      let session :=
        { session with contractWrappers := objSet session.contractWrappers id r.1 }
      let s := verifyValidatedOn env rest session
      (s.1, r.2 + s.2)

/-- `verifyValidated(session.contractWrappers, session)` as called by
`addInputFilesEndpoint` (line 776): every wrapper of the session. -/
def verifyValidatedAll (env : Env) (session : MySession) : MySession × Nat :=
  verifyValidatedOn env (session.contractWrappers.map (fun kv => kv.1)) session

/-- `verifyValidatedEndpoint` (lines 595-618): reject when the session has no
wrappers; otherwise assign each received contract's `address`/`chainId` to the
matching session wrapper, collect the ids passing the gate, and run
`verifyValidated` on them.  The `Nat` is the total number of `inject` calls. -/
def verifyValidatedEndpoint (env : Env)
    (receivedContracts : List SendableContract) (session : MySession) :
    MySession × Except String Nat :=
  if session.contractWrappers.isEmpty then
    (session, .error "There are currently no pending contracts.")
  else
    let step := receivedContracts.foldl
      (fun acc rc =>
        match objGet acc.1 rc.verificationId with
        | none => acc
        | some cw =>
          let cw := { cw with address := rc.address, chainId := rc.chainId }
          let ws := objSet acc.1 rc.verificationId cw
          let vids :=
            if isVerifiable cw then insertIfAbsent acc.2 rc.verificationId
            else acc.2
          (ws, vids))
      (session.contractWrappers, ([] : List String))
    let session := { session with contractWrappers := step.1 }
    let r := verifyValidatedOn env step.2 session
    (r.1, .ok r.2)

/-- Step 4 of `verifyFromEtherscanWithSession` (lines 377-389): assign the
Etherscan target to every wrapper whose `address` is not yet set (JS truthiness
guard `!contractWrapper.address`), collecting the ids passing the gate. -/
def etherscanAssignTargets (address chain : String) :
    List (String × ContractWrapper) →
    List (String × ContractWrapper) × List String
  | [] => ([], [])
  | (id, cw) :: rest =>
    let cw :=
      if !truthyStr cw.address then
        { cw with address := some address, chainId := some chain }
      else cw
    let r := etherscanAssignTargets address chain rest
    ((id, cw) :: r.1, if isVerifiable cw then id :: r.2 else r.2)

/-- `addInputFilesEndpoint` (lines 760-779), given the already-extracted input
files: store the batch (base64-encoded), and only when at least one file is new
run assembly and verification.  Returns the session, the `saveFiles` outcome and
whether the downstream assembly/verification pipeline ran. -/
def addInputFilesEndpoint (env : Env) (inputFiles : List PathBuffer)
    (session : MySession) : MySession × Except String Nat × Bool :=
  let pathContents : List PathContent :=
    inputFiles.map (fun pb => { path := pb.path, content := env.encode pb.buffer })
  let sr := saveFiles pathContents session
  match sr.2 with
  | .error e => (sr.1, .error e, false)
  | .ok newFilesCount =>
    if newFilesCount ≠ 0 then
      let session := validateContracts env sr.1
      let vr := verifyValidatedAll env session
      (vr.1, .ok newFilesCount, true)
    else (sr.1, .ok newFilesCount, false)

/-! ### BatchAddressLookup: `checkAllByAddresses` (lines 482-514) -/

/-- An entry of the result map: either per-chain results or the
`status: "false"` record assigned when no chain matched. -/
inductive AddrEntry where
  | withChains (chainIds : List (String × Option String))
  | falseEntry
deriving DecidableEq

/-- One `(address, chainId)` iteration of `checkAllByAddresses`
(lines 486-504).  Everything inside the `try` is modelled: a throwing lookup is
swallowed, and the JS `map.get(address).chainIds.push` on an entry without
`chainIds` (a previously recorded `status: "false"` record) throws a
`TypeError` that the same `catch` swallows, leaving the map unchanged. -/
def checkAllStep (env : Env) (address chainId : String)
    (map : List (String × AddrEntry)) : List (String × AddrEntry) :=
  match env.findAllByAddress address chainId with
  | .error _ => map
  | .ok found =>
    match found with
    | [] => map
    | m :: _ =>
      let map1 :=
        if hasKey map address then map
        else objSet map address (.withChains [])
      match objGet map1 address with
      | some (.withChains l) =>
        objSet map1 address (.withChains (l ++ [(chainId, m.status)]))
      | _ => map1

/-- The inner chain loop of `checkAllByAddresses` (lines 486-504). -/
def checkAllChainLoop (env : Env) (address : String) :
    List String → List (String × AddrEntry) → List (String × AddrEntry)
  | [], map => map
  | chainId :: rest, map =>
    checkAllChainLoop env address rest (checkAllStep env address chainId map)

/-- The outer address loop of `checkAllByAddresses` (lines 485-511): after the
chain loop, an address still absent from the map gets the `status: "false"`
record. -/
def checkAllAddressLoop (env : Env) :
    List String → List String → List (String × AddrEntry) →
    List (String × AddrEntry)
  | [], _, map => map
  | address :: rest, chainIds, map =>
    let map := checkAllChainLoop env address chainIds map
    let map :=
      if hasKey map address then map else objSet map address .falseEntry
    checkAllAddressLoop env rest chainIds map

/-- `checkAllByAddresses` (lines 482-514). -/
def checkAllByAddresses (env : Env) (addresses chainIds : List String) :
    List (String × AddrEntry) :=
  checkAllAddressLoop env addresses chainIds []

/-- Whether a lookup result contributes no confirmed match: it either threw or
returned the empty list. -/
def noMatchR : Except String (List Match) → Bool
  | .error _ => true
  | .ok l => l.isEmpty

/-! ### Concrete environments and fixtures for witnesses and counterexamples -/

/-- A neutral environment: every contract valid, no stored matches, the
external services unreachable, and a transparent base64 codec. -/
def baseEnv : Env where
  isValid := fun _ => true
  fetchMissing := fun c => .ok c
  findByAddress := fun _ _ => []
  findAllByAddress := fun _ _ => .ok []
  inject := fun _ => .error "unreachable"
  useAllSources := fun c _ => .ok c
  checkFiles := fun _ => .error "unreachable"
  encode := fun s => s
  decode := fun s => s

/-- A complete contract: no missing or invalid sources. -/
def cA : CheckedContract :=
  { name := "C", compilerVersion := some "0.8.0", metadataRaw := "M",
    solidity := [("A.sol", "a")], missing := [], invalid := [] }

/-- A verifiable wrapper around `cA`. -/
def cwA : ContractWrapper :=
  { contract := cA, address := some "0xabc", chainId := some "1" }

/-- A stored confirmed match. -/
def mPerfect : Match :=
  { status := some "perfect", address := some "0xabc", message := some "ok",
    storageTimestamp := some 5 }

/-- Environment with a stored confirmed match for every pair; `inject` throws,
so any `inject` call would surface as an error status. -/
def envC1 : Env := { baseEnv with findByAddress := fun _ _ => [mPerfect] }

/-- First-pass candidate: `A.sol` resolved, `B.sol` missing. -/
def c2pass1 : CheckedContract :=
  { name := "C", compilerVersion := some "0.8.0", metadataRaw := "M",
    solidity := [("A.sol", "a")], missing := ["B.sol"], invalid := [] }

/-- Second-pass candidate for the same metadata: `B.sol` resolved but `A.sol`
reported missing. -/
def c2pass2 : CheckedContract :=
  { name := "C", compilerVersion := some "0.8.0", metadataRaw := "M",
    solidity := [("B.sol", "b")], missing := ["A.sol"], invalid := [] }

/-- Validation service for the merge counterexample: the one-file batch yields
`c2pass1`, the grown batch yields `c2pass2` (same candidate id `M`). -/
def envC2 : Env :=
  { baseEnv with
      checkFiles := fun pbs =>
        if pbs.length ≤ 1 then .ok ([c2pass1], []) else .ok ([c2pass2], []) }

/-- Session after uploading the first file. -/
def c2s1 : MySession := (saveFiles [⟨"f1.sol", "c1"⟩] emptySession).1

/-- Session after the first assembly pass. -/
def c2s2 : MySession := validateContracts envC2 c2s1

/-- Session after uploading the second file. -/
def c2s3 : MySession := (saveFiles [⟨"f2.sol", "c2"⟩] c2s2).1

/-- Session after the second assembly pass. -/
def c2s4 : MySession := validateContracts envC2 c2s3

/-- The expanded contract produced by `useAllSources` in `envC3`. -/
def cAexp : CheckedContract := { cA with name := "Cexp" }

/-- The primary attempt's outcome in `envC3`. -/
def mEfib : Match :=
  { status := some "extra-file-input-bug", address := none,
    message := some "m1", storageTimestamp := none }

/-- The retry's outcome in `envC3`: a returned (not thrown) error verdict. -/
def mRetryErr : Match :=
  { status := none, address := none, message := some "m2",
    storageTimestamp := none }

/-- Environment for the retry claims: no stored match, the primary attempt
returns `extra-file-input-bug`, and the expanded retry returns an inconclusive
verdict with a different message. -/
def envC3 : Env :=
  { baseEnv with
      inject := fun input =>
        if input.contract.name = "Cexp" then .ok mRetryErr else .ok mEfib,
      useAllSources := fun c _ => .ok { c with name := "Cexp" } }

/-- A validation service that rejects every batch outright. -/
def envFail : Env :=
  { baseEnv with checkFiles := fun _ => .error "malformed" }

/-- A session holding one file and one assembled candidate. -/
def s7 : MySession :=
  { inputFiles := [("c1", ⟨"f1.sol", "c1"⟩)],
    contractWrappers := [("M", cwA)], unusedSources := [] }

/-- A session whose only candidate has its target already set. -/
def s9 : MySession :=
  { inputFiles := [], contractWrappers := [("W", cwA)], unusedSources := [] }

/-- Lookup service for the batch-lookup witness: only `(0xb, 1)` has a stored
match; every other pair throws. -/
def env8 : Env :=
  { baseEnv with
      findAllByAddress := fun a c =>
        if a = "0xb" ∧ c = "1" then .ok [mPerfect] else .error "boom" }

/-- A 27 MiB (base64 length) file content. -/
def bigContent27 : String := String.mk (List.replicate 28311552 'a')

/-- The 27 MiB file. -/
def pc27 : PathContent := ⟨"big.sol", bigContent27⟩

/-- The session holding exactly the 27 MiB file. -/
def s27 : MySession :=
  { inputFiles := [(bigContent27, pc27)], contractWrappers := [],
    unusedSources := [] }

/-- A 30 MiB (base64 length) file content. -/
def bigContent30 : String := String.mk (List.replicate 31457280 'a')

/-- The 30 MiB file. -/
def pc30 : PathContent := ⟨"file.sol", bigContent30⟩

/-- The session holding exactly the 30 MiB file. -/
def s30 : MySession :=
  { inputFiles := [(bigContent30, pc30)], contractWrappers := [],
    unusedSources := [] }

/-- A single file strictly larger than the whole 50 MiB cap. -/
def bigContent51 : String := String.mk (List.replicate 52428801 'a')

/-- The over-cap file. -/
def pc51 : PathContent := ⟨"x.sol", bigContent51⟩

/-- A tiny upload batch. -/
def smallBatch : List PathContent := [⟨"a.sol", "x"⟩]

/-- A tiny upload batch as raw input files. -/
def smallBuffers : List PathBuffer := [⟨"a.sol", "aa"⟩]

/-- The tiny batch in stored (base64-encoded under `baseEnv`) form. -/
def smallContents : List PathContent := [⟨"a.sol", "aa"⟩]

/-- The session after storing `smallContents` into a fresh session. -/
def smallSession : MySession :=
  { inputFiles := [("aa", ⟨"a.sol", "aa"⟩)], contractWrappers := [],
    unusedSources := [] }

/-! ### Association-list laws -/

theorem objGet_objSet {α : Type} (m : List (String × α)) (k j : String) (v : α) :
    objGet (objSet m k v) j = if k = j then some v else objGet m j := by
  induction m with
  | nil => simp [objSet, objGet]
  | cons kv rest ih =>
    obtain ⟨k', v'⟩ := kv
    by_cases hk : k' = k
    · subst hk
      simp only [objSet, if_pos rfl, objGet]
      by_cases hj : k' = j <;> simp [hj]
    · simp only [objSet, if_neg hk, objGet]
      by_cases hj : k' = j
      · subst hj
        have : ¬ k = k' := fun h => hk h.symm
        simp [this]
      · simp [hj, ih]

theorem objGet_objSet_self {α : Type} (m : List (String × α)) (k : String)
    (v : α) : objGet (objSet m k v) k = some v := by
  simp [objGet_objSet]

theorem objGet_objSet_ne {α : Type} (m : List (String × α)) (k j : String)
    (v : α) (h : k ≠ j) : objGet (objSet m k v) j = objGet m j := by
  simp [objGet_objSet, h]

theorem hasKey_objSet_of {α : Type} (m : List (String × α)) (k j : String)
    (v : α) (h : hasKey m j = true) : hasKey (objSet m k v) j = true := by
  unfold hasKey at h ⊢
  rw [objGet_objSet]
  by_cases hk : k = j <;> simp [hk, h]

theorem hasKey_objSet_self {α : Type} (m : List (String × α)) (k : String)
    (v : α) : hasKey (objSet m k v) k = true := by
  simp [hasKey, objGet_objSet_self]

/-! ### Size-accumulator laws (the running `inputSize` of `saveFiles`) -/

theorem batch_foldl_shift (pcs : List PathContent) (k : Nat) :
    pcs.foldl (fun n pc => n + pc.content.length) k = k + batchSize pcs := by
  induction pcs generalizing k with
  | nil => simp [batchSize]
  | cons pc rest ih =>
    simp only [List.foldl, batchSize] at *
    rw [ih, ih (0 + pc.content.length)]
    omega

/-- The size test inside `saveFiles`, rephrased as stored size plus batch size. -/
theorem saveFiles_size_eq (pcs : List PathContent) (s : MySession) :
    pcs.foldl (fun n pc => n + pc.content.length) (sessionSize s.inputFiles)
      = sessionSize s.inputFiles + batchSize pcs :=
  batch_foldl_shift pcs _

/-! ### `saveFilesLoop` laws -/

theorem saveFilesLoop_hasKey_mono (pcs : List PathContent)
    (fs : List (String × PathContent)) (k : Nat) (id : String)
    (h : hasKey fs id = true) :
    hasKey (saveFilesLoop pcs fs k).1 id = true := by
  induction pcs generalizing fs k with
  | nil => simpa [saveFilesLoop]
  | cons pc rest ih =>
    unfold saveFilesLoop
    by_cases hp : hasKey fs (generateId pc.content) = true
    · simp only [hp, if_pos]
      exact ih fs k h
    · simp only [hp, if_neg, Bool.not_eq_true]
      exact ih _ _ (hasKey_objSet_of _ _ _ _ h)

theorem saveFilesLoop_mem_hasKey (pcs : List PathContent)
    (fs : List (String × PathContent)) (k : Nat) (pc : PathContent)
    (h : pc ∈ pcs) :
    hasKey (saveFilesLoop pcs fs k).1 (generateId pc.content) = true := by
  induction pcs generalizing fs k with
  | nil => cases h
  | cons pc' rest ih =>
    unfold saveFilesLoop
    rcases List.mem_cons.mp h with hEq | hMem
    · subst hEq
      by_cases hp : hasKey fs (generateId pc.content) = true
      · simp only [hp, if_pos]
        exact saveFilesLoop_hasKey_mono rest fs k _ hp
      · simp only [hp, if_neg, Bool.not_eq_true]
        exact saveFilesLoop_hasKey_mono rest _ _ _ (hasKey_objSet_self _ _ _)
    · by_cases hp : hasKey fs (generateId pc'.content) = true
      · simp only [hp, if_pos]
        exact ih fs k hMem
      · simp only [hp, if_neg, Bool.not_eq_true]
        exact ih _ _ hMem

theorem saveFilesLoop_all_present (pcs : List PathContent)
    (fs : List (String × PathContent)) (k : Nat)
    (h : ∀ pc ∈ pcs, hasKey fs (generateId pc.content) = true) :
    saveFilesLoop pcs fs k = (fs, k) := by
  induction pcs with
  | nil => rfl
  | cons pc rest ih =>
    unfold saveFilesLoop
    have hp := h pc (List.mem_cons_self pc rest)
    simp only [hp, if_pos]
    exact ih (fun pc' hm => h pc' (List.mem_cons_of_mem pc hm))

/-- Length of a replicated-character string (used to reason about the size cap
without evaluating multi-megabyte contents). -/
theorem strLen_replicate (n : Nat) (c : Char) :
    (String.mk (List.replicate n c)).length = n := by
  show (List.replicate n c).length = n
  simp

/-- `saveFiles` in the over-cap case: the capacity error, nothing admitted. -/
theorem saveFiles_over_cap (pcs : List PathContent) (s : MySession)
    (h : sessionSize s.inputFiles + batchSize pcs > MAX_SESSION_SIZE) :
    saveFiles pcs s = (s, .error capacityMsg) := by
  simp only [saveFiles]
  rw [saveFiles_size_eq, if_pos h]

/-- `saveFiles` in the within-cap case: the dedup loop runs. -/
theorem saveFiles_under_cap (pcs : List PathContent) (s : MySession)
    (h : ¬ sessionSize s.inputFiles + batchSize pcs > MAX_SESSION_SIZE) :
    saveFiles pcs s
      = ({ s with inputFiles := (saveFilesLoop pcs s.inputFiles 0).1 },
         .ok (saveFilesLoop pcs s.inputFiles 0).2) := by
  simp only [saveFiles]
  rw [saveFiles_size_eq, if_neg h]

/-! ### Claim theorems -/

/-- C5: for every `saveFiles` call, if the session's current total file size
plus the incoming batch's total size exceeds the 50 MiB cap, the call fails
with the capacity error and admits zero files, leaving the session unchanged;
otherwise the size check raises no error. -/
theorem capacity_check (pcs : List PathContent) (s : MySession) :
    (sessionSize s.inputFiles + batchSize pcs > MAX_SESSION_SIZE →
      saveFiles pcs s = (s, .error capacityMsg)) ∧
    (sessionSize s.inputFiles + batchSize pcs ≤ MAX_SESSION_SIZE →
      exceptIsOk (saveFiles pcs s).2 = true) := by
  constructor
  · exact fun h => saveFiles_over_cap pcs s h
  · intro h
    rw [saveFiles_under_cap pcs s (by omega)]
    rfl

/-- Witness for C5: a single 50 MiB + 1 upload into a fresh session fails with
the capacity error and changes nothing, while a tiny upload passes the check. -/
theorem capacity_check_witness :
    saveFiles [pc51] emptySession = (emptySession, .error capacityMsg) ∧
    exceptIsOk (saveFiles smallBatch emptySession).2 = true := by
  have hse : sessionSize emptySession.inputFiles = 0 := rfl
  have hb : batchSize [pc51] = 52428801 := by
    unfold batchSize
    rw [List.foldl_cons, List.foldl_nil, Nat.zero_add]
    exact strLen_replicate _ _
  refine ⟨(capacity_check [pc51] emptySession).1 ?_,
    (capacity_check smallBatch emptySession).2 (by decide)⟩
  rw [hse, hb]
  norm_num [MAX_SESSION_SIZE]

/-- C7: if the validation service throws during an assembly pass, every file
path in the batch is recorded as unused and the session's candidate map (and
file store) are left completely unmodified. -/
theorem validation_failure_marks_all_unused (env : Env) (s : MySession)
    (e : String)
    (h : env.checkFiles (sessionPathBuffers env s.inputFiles) = .error e) :
    (validateContracts env s).contractWrappers = s.contractWrappers ∧
    (validateContracts env s).inputFiles = s.inputFiles ∧
    (validateContracts env s).unusedSources
      = (sessionPathBuffers env s.inputFiles).map (fun pb => pb.path) := by
  simp [validateContracts, h, updateUnused]

/-- Witness for C7 at a concrete rejecting validation service. -/
theorem validation_failure_witness :
    (validateContracts envFail s7).contractWrappers = s7.contractWrappers ∧
    (validateContracts envFail s7).inputFiles = s7.inputFiles ∧
    (validateContracts envFail s7).unusedSources
      = (sessionPathBuffers envFail s7.inputFiles).map (fun pb => pb.path) :=
  validation_failure_marks_all_unused envFail s7 "malformed" rfl

/-- C10: the capacity check sums the sizes of all incoming files before
deduplication: a 30 MiB file is stored once, remains present under its content
id, and re-uploading the identical file throws the capacity error instead of
returning 0, even though it would add zero new bytes. -/
theorem capacity_counts_duplicates :
    saveFiles [pc30] emptySession = (s30, .ok 1) ∧
    hasKey s30.inputFiles (generateId pc30.content) = true ∧
    saveFiles [pc30] s30 = (s30, .error capacityMsg) := by
  have hse : sessionSize emptySession.inputFiles = 0 := rfl
  have hb : batchSize [pc30] = 31457280 := by
    unfold batchSize
    rw [List.foldl_cons, List.foldl_nil, Nat.zero_add]
    exact strLen_replicate _ _
  have hs30 : sessionSize s30.inputFiles = 31457280 := by
    show sessionSize [(bigContent30, pc30)] = 31457280
    unfold sessionSize
    rw [List.foldl_cons, List.foldl_nil, Nat.zero_add]
    exact strLen_replicate _ _
  refine ⟨?_, ?_, ?_⟩
  · have hle : ¬ sessionSize emptySession.inputFiles + batchSize [pc30]
        > MAX_SESSION_SIZE := by
      rw [hse, hb]
      norm_num [MAX_SESSION_SIZE]
    rw [saveFiles_under_cap [pc30] emptySession hle]
    rfl
  · show (objGet [(bigContent30, pc30)] (generateId pc30.content)).isSome = true
    rw [show generateId pc30.content = bigContent30 from rfl]
    show (if bigContent30 = bigContent30 then some pc30
      else objGet [] bigContent30).isSome = true
    rw [if_pos rfl]
    rfl
  · exact saveFiles_over_cap [pc30] s30 (by rw [hs30, hb]; norm_num [MAX_SESSION_SIZE])

/-- Counterexample for C6: the second upload of the same 27 MiB file does not
return `newFileCount = 0`; because the incoming duplicate's size is counted
again by the capacity check, it throws the capacity error instead. -/
theorem idempotent_upload_cex :
    saveFiles [pc27] emptySession = (s27, .ok 1) ∧
    saveFiles [pc27] s27 = (s27, .error capacityMsg) := by
  have hse : sessionSize emptySession.inputFiles = 0 := rfl
  have hb : batchSize [pc27] = 28311552 := by
    unfold batchSize
    rw [List.foldl_cons, List.foldl_nil, Nat.zero_add]
    exact strLen_replicate _ _
  have hs27 : sessionSize s27.inputFiles = 28311552 := by
    show sessionSize [(bigContent27, pc27)] = 28311552
    unfold sessionSize
    rw [List.foldl_cons, List.foldl_nil, Nat.zero_add]
    exact strLen_replicate _ _
  refine ⟨?_, ?_⟩
  · have hle : ¬ sessionSize emptySession.inputFiles + batchSize [pc27]
        > MAX_SESSION_SIZE := by
      rw [hse, hb]
      norm_num [MAX_SESSION_SIZE]
    rw [saveFiles_under_cap [pc27] emptySession hle]
    rfl
  · exact saveFiles_over_cap [pc27] s27 (by rw [hs27, hb]; norm_num [MAX_SESSION_SIZE])

/-- C6 (amended): re-uploading a batch already stored in the session yields
`newFileCount = 0`, leaves the session's files and candidates unchanged, and
the endpoint skips the downstream assembly/verification pipeline — provided
the second call's capacity check passes (the duplicates' sizes are counted
again; at the cap the call instead throws, see the counterexample). -/
theorem idempotent_upload (env : Env) (pbs : List PathBuffer)
    (pcs : List PathContent) (s s' : MySession) (n : Nat)
    (hpc : pcs = pbs.map (fun pb =>
      ({ path := pb.path, content := env.encode pb.buffer } : PathContent)))
    (h1 : saveFiles pcs s = (s', .ok n))
    (h2 : sessionSize s'.inputFiles + batchSize pcs ≤ MAX_SESSION_SIZE) :
    saveFiles pcs s' = (s', .ok 0) ∧
    addInputFilesEndpoint env pbs s' = (s', .ok 0, false) := by
  have hfiles : s'.inputFiles = (saveFilesLoop pcs s.inputFiles 0).1 := by
    by_cases hc : sessionSize s.inputFiles + batchSize pcs > MAX_SESSION_SIZE
    · rw [saveFiles_over_cap pcs s hc] at h1
      simp at h1
    · rw [saveFiles_under_cap pcs s hc] at h1
      have hfst : ({ s with inputFiles := (saveFilesLoop pcs s.inputFiles 0).1 }
          : MySession) = s' := congrArg Prod.fst h1
      exact (congrArg MySession.inputFiles hfst).symm
  have hpresent : ∀ pc ∈ pcs,
      hasKey s'.inputFiles (generateId pc.content) = true := by
    intro pc hm
    rw [hfiles]
    exact saveFilesLoop_mem_hasKey pcs s.inputFiles 0 pc hm
  have hloop : saveFilesLoop pcs s'.inputFiles 0 = (s'.inputFiles, 0) :=
    saveFilesLoop_all_present pcs s'.inputFiles 0 hpresent
  have hsecond : saveFiles pcs s' = (s', .ok 0) := by
    rw [saveFiles_under_cap pcs s' (by omega), hloop]
  refine ⟨hsecond, ?_⟩
  simp only [addInputFilesEndpoint, ← hpc, hsecond]
  simp

/-- Witness for C6 at a concrete duplicate upload well below the cap. -/
theorem idempotent_upload_witness :
    saveFiles smallContents smallSession = (smallSession, .ok 0) ∧
    addInputFilesEndpoint baseEnv smallBuffers smallSession
      = (smallSession, .ok 0, false) :=
  idempotent_upload baseEnv smallBuffers smallContents emptySession
    smallSession 1 rfl rfl (by decide)

/-- C1: a candidate passing the verifiability gate whose `(address, chainId)`
pair already has a stored confirmed match adopts that match's
status/statusMessage/storageTimestamp and triggers zero `inject` calls. -/
theorem stored_match_short_circuits (env : Env)
    (files : List (String × PathContent)) (cw : ContractWrapper) (m : Match)
    (ms : List Match) (st : String)
    (hgate : isVerifiable
      { cw with contract := checkAndFetchMissing env cw.contract } = true)
    (hfound : env.findByAddress cw.address cw.chainId = m :: ms)
    (hstatus : m.status = some st) (hne : st ≠ "") :
    verifyOne env files cw =
      ({ cw with contract := checkAndFetchMissing env cw.contract,
                 status := some st, statusMessage := m.message,
                 storageTimestamp := m.storageTimestamp }, 0) := by
  simp [verifyOne, hgate, hfound, recordMatch, statusOrError, hstatus, hne]

/-- Witness for C1: with a stored `perfect` match and an unreachable `inject`,
the stored result is adopted verbatim. -/
theorem stored_match_witness :
    verifyOne envC1 [] cwA =
      ({ cwA with contract := checkAndFetchMissing envC1 cwA.contract,
                  status := some "perfect", statusMessage := some "ok",
                  storageTimestamp := some 5 }, 0) :=
  stored_match_short_circuits envC1 [] cwA mPerfect [] "perfect"
    (by decide) rfl rfl (by decide)

/-- Counterexample for C2: after the first assembly pass the candidate `M` has
`A.sol` resolved; after a second upload and assembly pass whose validation
result lists `A.sol` as missing, the wholesale reassignment (lines 580-583)
puts `A.sol` into the candidate's `missingSources` even though it was
previously resolved. -/
theorem monotonic_merge_cex :
    (objGet c2s2.contractWrappers "M").map (fun w => w.contract.solidity)
      = some [("A.sol", "a")] ∧
    (objGet c2s4.contractWrappers "M").map (fun w => w.contract.missing)
      = some ["A.sol"] := by decide

/-- C2 (amended): each assembly pass overwrites a candidate's
`resolvedSources`/`missingSources` wholesale with the latest validation
result (the copy loop's effect is discarded), so the claimed disjointness and
monotonicity hold only if the validation service itself preserves previously
resolved paths across passes. -/
theorem assembly_adopts_latest_pass (env : Env) (s : MySession)
    (c : CheckedContract) (unused : List String)
    (h : env.checkFiles (sessionPathBuffers env s.inputFiles)
      = .ok ([c], unused)) :
    (objGet (validateContracts env s).contractWrappers
        (generateId c.metadataRaw)).map
        (fun w => (w.contract.solidity, w.contract.missing))
      = some (c.solidity, c.missing) := by
  simp only [validateContracts, h, updateUnused, newPendingContracts,
    mergeNewContracts, List.foldl, objSet]
  cases hold : objGet s.contractWrappers (generateId c.metadataRaw) with
  | some old => simp [hold, objGet_objSet_self, mergeWrapper]
  | none => simp [hold, objGet_objSet_self]

/-- Witness for C2's amended claim at the concrete first assembly pass. -/
theorem assembly_adopts_latest_pass_witness :
    (objGet (validateContracts envC2 c2s1).contractWrappers
        (generateId c2pass1.metadataRaw)).map
        (fun w => (w.contract.solidity, w.contract.missing))
      = some (c2pass1.solidity, c2pass1.missing) :=
  assembly_adopts_latest_pass envC2 c2s1 c2pass1 [] rfl

/-- Counterexample for C3: the primary attempt returns `extra-file-input-bug`;
the expanded retry is executed (two `inject` calls) and returns an
inconclusive verdict (status `none`, message `m2`), yet the candidate's final
status/message are the primary attempt's (`extra-file-input-bug`/`m1`) — the
retry's result is not recorded. -/
theorem retry_result_not_recorded_cex :
    (verifyOne envC3 [] cwA).2 = 2 ∧
    okStatus (envC3.inject ⟨[cwA.address], cwA.chainId, cAexp⟩) = some none ∧
    (verifyOne envC3 [] cwA).1.status = some "extra-file-input-bug" ∧
    (verifyOne envC3 [] cwA).1.statusMessage = some "m1" := by decide

/-- C3 (amended): when the primary attempt returns `extra-file-input-bug`, the
orchestrator performs exactly one expanded retry; the retry's result is
recorded only when it is `perfect` or `partial`, otherwise the primary
attempt's `extra-file-input-bug` result (message and timestamp included)
stands. -/
theorem retry_adoption (env : Env) (files : List (String × PathContent))
    (cw : ContractWrapper) (m tm : Match) (c2 : CheckedContract)
    (hgate : isVerifiable
      { cw with contract := checkAndFetchMissing env cw.contract } = true)
    (hfound : env.findByAddress cw.address cw.chainId = [])
    (hinj : env.inject
      ⟨[cw.address], cw.chainId, checkAndFetchMissing env cw.contract⟩ = .ok m)
    (hefib : m.status = some "extra-file-input-bug")
    (hexp : env.useAllSources (checkAndFetchMissing env cw.contract)
      (sessionPathBuffers env files) = .ok c2)
    (hinj2 : env.inject ⟨[cw.address], cw.chainId, c2⟩ = .ok tm) :
    verifyOne env files cw =
      (recordMatch { cw with contract := checkAndFetchMissing env cw.contract }
        (if tm.status = some "perfect" ∨ tm.status = some "partial"
          then tm else m), 2) := by
  simp [verifyOne, hgate, hfound, hinj, hefib, hexp, hinj2]

/-- Witness for C3's amended claim at the concrete retry scenario. -/
theorem retry_adoption_witness :
    verifyOne envC3 [] cwA =
      (recordMatch
        { cwA with contract := checkAndFetchMissing envC3 cwA.contract }
        (if mRetryErr.status = some "perfect" ∨ mRetryErr.status = some "partial"
          then mRetryErr else mEfib), 2) :=
  retry_adoption envC3 [] cwA mEfib mRetryErr cAexp (by decide) rfl rfl rfl
    rfl rfl

/-- C4: per invocation, a candidate triggers at most two `inject` calls, and
two calls happen only when the primary call returned `extra-file-input-bug`;
in particular a retry returning `extra-file-input-bug` triggers no further
attempt. -/
theorem inject_bounded (env : Env) (files : List (String × PathContent))
    (cw : ContractWrapper) :
    (verifyOne env files cw).2 ≤ 2 ∧
    ((verifyOne env files cw).2 = 2 →
      okStatus (env.inject (primaryInputData env cw))
        = some (some "extra-file-input-bug")) := by
  have hpid : primaryInputData env cw
      = ⟨[cw.address], cw.chainId, checkAndFetchMissing env cw.contract⟩ :=
    rfl
  rw [hpid]
  cases hg : isVerifiable
      { cw with contract := checkAndFetchMissing env cw.contract } with
  | false => simp [verifyOne, hg]
  | true =>
    cases hf : env.findByAddress cw.address cw.chainId with
    | cons m ms => simp [verifyOne, hg, hf]
    | nil =>
      cases hi : env.inject
          ⟨[cw.address], cw.chainId, checkAndFetchMissing env cw.contract⟩ with
      | error e => simp [verifyOne, hg, hf, hi, okStatus]
      | ok m =>
        by_cases hm : m.status = some "extra-file-input-bug"
        · cases hu : env.useAllSources (checkAndFetchMissing env cw.contract)
              (sessionPathBuffers env files) with
          | error e => simp [verifyOne, hg, hf, hi, hm, hu, okStatus]
          | ok c2 =>
            cases hi2 : env.inject ⟨[cw.address], cw.chainId, c2⟩ with
            | error e2 => simp [verifyOne, hg, hf, hi, hm, hu, hi2, okStatus]
            | ok tm => simp [verifyOne, hg, hf, hi, hm, hu, hi2, okStatus]
        · simp [verifyOne, hg, hf, hi, hm, okStatus]

/-- Witness for C4: the retry scenario makes exactly two calls, and the
primary call indeed returned `extra-file-input-bug`. -/
theorem inject_bounded_witness :
    (verifyOne envC3 [] cwA).2 ≤ 2 ∧
    okStatus (envC3.inject (primaryInputData envC3 cwA))
      = some (some "extra-file-input-bug") :=
  ⟨(inject_bounded envC3 [] cwA).1, (inject_bounded envC3 [] cwA).2 (by decide)⟩

/-- A step whose lookup threw or found nothing leaves the map unchanged. -/
theorem checkAllStep_noMatch (env : Env) (a c : String)
    (map : List (String × AddrEntry))
    (h : noMatchR (env.findAllByAddress a c) = true) :
    checkAllStep env a c map = map := by
  unfold checkAllStep
  cases hfa : env.findAllByAddress a c with
  | error e => rfl
  | ok found =>
    cases found with
    | nil => rfl
    | cons m ms =>
      rw [hfa] at h
      simp [noMatchR] at h

/-- A step for address `b` never touches another address's entry. -/
theorem checkAllStep_preserve_ne (env : Env) (b c : String)
    (map : List (String × AddrEntry)) (a : String) (hne : b ≠ a) :
    objGet (checkAllStep env b c map) a = objGet map a := by
  have hset : ∀ (mm : List (String × AddrEntry)) (e : AddrEntry),
      objGet (objSet mm b e) a = objGet mm a :=
    fun mm e => objGet_objSet_ne mm b a e hne
  unfold checkAllStep
  cases hfa : env.findAllByAddress b c with
  | error e => rfl
  | ok found =>
    cases found with
    | nil => rfl
    | cons m ms =>
      cases hk : hasKey map b with
      | true =>
        simp only [hk, if_true]
        cases hg : objGet map b with
        | none => simp [hg]
        | some entry =>
          cases entry with
          | withChains l => simp [hg, hset]
          | falseEntry => simp [hg]
      | false =>
        simp only [hk]
        rw [if_neg Bool.false_ne_true, objGet_objSet_self]
        simp [hset]

/-- A step never removes a key from the map. -/
theorem checkAllStep_hasKey_mono (env : Env) (b c : String)
    (map : List (String × AddrEntry)) (x : String)
    (h : hasKey map x = true) :
    hasKey (checkAllStep env b c map) x = true := by
  unfold checkAllStep
  cases hfa : env.findAllByAddress b c with
  | error e => exact h
  | ok found =>
    cases found with
    | nil => exact h
    | cons m ms =>
      cases hk : hasKey map b with
      | true =>
        simp only [hk, if_true]
        cases hg : objGet map b with
        | none => simpa [hg] using h
        | some entry =>
          cases entry with
          | withChains l => simp [hg, hasKey_objSet_of _ _ _ _ h]
          | falseEntry => simpa [hg] using h
      | false =>
        simp only [hk]
        rw [if_neg Bool.false_ne_true, objGet_objSet_self]
        exact hasKey_objSet_of _ _ _ _ (hasKey_objSet_of _ _ _ _ h)

/-- The chain loop for an address with no confirmed match anywhere leaves the
map unchanged. -/
theorem chainLoop_noMatch (env : Env) (a : String) (chains : List String)
    (map : List (String × AddrEntry))
    (h : ∀ c ∈ chains, noMatchR (env.findAllByAddress a c) = true) :
    checkAllChainLoop env a chains map = map := by
  induction chains generalizing map with
  | nil => rfl
  | cons c rest ih =>
    unfold checkAllChainLoop
    rw [checkAllStep_noMatch env a c map (h c (List.mem_cons_self c rest))]
    exact ih map (fun c' hm => h c' (List.mem_cons_of_mem c hm))

/-- The chain loop for address `b` never touches another address's entry. -/
theorem chainLoop_preserve_ne (env : Env) (b : String) (chains : List String)
    (map : List (String × AddrEntry)) (a : String) (hne : b ≠ a) :
    objGet (checkAllChainLoop env b chains map) a = objGet map a := by
  induction chains generalizing map with
  | nil => rfl
  | cons c rest ih =>
    unfold checkAllChainLoop
    rw [ih (checkAllStep env b c map)]
    exact checkAllStep_preserve_ne env b c map a hne

/-- The chain loop never removes a key. -/
theorem chainLoop_hasKey_mono (env : Env) (b : String) (chains : List String)
    (map : List (String × AddrEntry)) (x : String)
    (h : hasKey map x = true) :
    hasKey (checkAllChainLoop env b chains map) x = true := by
  induction chains generalizing map with
  | nil => exact h
  | cons c rest ih =>
    unfold checkAllChainLoop
    exact ih _ (checkAllStep_hasKey_mono env b c map x h)

/-- The address loop preserves an already-recorded `status: "false"` entry for
an address with no confirmed match anywhere. -/
theorem addressLoop_preserves_false (env : Env) (addrs chains : List String)
    (a : String) (map : List (String × AddrEntry))
    (hnm : ∀ c ∈ chains, noMatchR (env.findAllByAddress a c) = true)
    (hinv : objGet map a = some .falseEntry) :
    objGet (checkAllAddressLoop env addrs chains map) a = some .falseEntry := by
  induction addrs generalizing map with
  | nil => exact hinv
  | cons b rest ih =>
    simp only [checkAllAddressLoop]
    by_cases hb : b = a
    · subst hb
      rw [chainLoop_noMatch env b chains map hnm]
      have hk : hasKey map b = true := by
        unfold hasKey
        rw [hinv]
        rfl
      rw [if_pos hk]
      exact ih map hinv
    · have h1 : objGet (checkAllChainLoop env b chains map) a
          = some .falseEntry := by
        rw [chainLoop_preserve_ne env b chains map a hb]
        exact hinv
      cases hk : hasKey (checkAllChainLoop env b chains map) b with
      | true =>
        rw [if_pos rfl]
        exact ih _ h1
      | false =>
        rw [if_neg Bool.false_ne_true]
        refine ih _ ?_
        rw [objGet_objSet_ne _ b a _ hb]
        exact h1

/-- An address with no confirmed match on any requested chain ends up with the
`status: "false"` entry. -/
theorem addressLoop_false (env : Env) (addrs chains : List String)
    (a : String) (map : List (String × AddrEntry))
    (hmem : a ∈ addrs)
    (hnm : ∀ c ∈ chains, noMatchR (env.findAllByAddress a c) = true)
    (hinv : objGet map a = none ∨ objGet map a = some .falseEntry) :
    objGet (checkAllAddressLoop env addrs chains map) a = some .falseEntry := by
  induction addrs generalizing map with
  | nil => cases hmem
  | cons b rest ih =>
    simp only [checkAllAddressLoop]
    by_cases hb : b = a
    · subst hb
      rw [chainLoop_noMatch env b chains map hnm]
      rcases hinv with hnone | hfalse
      · have hk : hasKey map b = false := by
          unfold hasKey
          rw [hnone]
          rfl
        rw [if_neg (by rw [hk]; exact Bool.false_ne_true)]
        exact addressLoop_preserves_false env rest chains b _ hnm
          (objGet_objSet_self map b .falseEntry)
      · have hk : hasKey map b = true := by
          unfold hasKey
          rw [hfalse]
          rfl
        rw [if_pos hk]
        exact addressLoop_preserves_false env rest chains b map hnm hfalse
    · have hmem' : a ∈ rest := by
        rcases List.mem_cons.mp hmem with h | h
        · exact absurd h.symm hb
        · exact h
      have h1 : objGet (checkAllChainLoop env b chains map) a = objGet map a :=
        chainLoop_preserve_ne env b chains map a hb
      cases hk : hasKey (checkAllChainLoop env b chains map) b with
      | true =>
        rw [if_pos rfl]
        refine ih _ hmem' ?_
        rw [h1]
        exact hinv
      | false =>
        rw [if_neg Bool.false_ne_true]
        refine ih _ hmem' ?_
        rw [objGet_objSet_ne _ b a _ hb, h1]
        exact hinv

/-- The address loop never removes a key. -/
theorem addressLoop_hasKey_mono (env : Env) (addrs chains : List String)
    (map : List (String × AddrEntry)) (x : String)
    (h : hasKey map x = true) :
    hasKey (checkAllAddressLoop env addrs chains map) x = true := by
  induction addrs generalizing map with
  | nil => exact h
  | cons b rest ih =>
    simp only [checkAllAddressLoop]
    have h1 : hasKey (checkAllChainLoop env b chains map) x = true :=
      chainLoop_hasKey_mono env b chains map x h
    cases hk : hasKey (checkAllChainLoop env b chains map) b with
    | true =>
      rw [if_pos rfl]
      exact ih _ h1
    | false =>
      rw [if_neg Bool.false_ne_true]
      exact ih _ (hasKey_objSet_of _ _ _ _ h1)

/-- Every processed address is present in the result map. -/
theorem addressLoop_hasKey (env : Env) (addrs chains : List String)
    (map : List (String × AddrEntry)) (a : String) (hmem : a ∈ addrs) :
    hasKey (checkAllAddressLoop env addrs chains map) a = true := by
  induction addrs generalizing map with
  | nil => cases hmem
  | cons b rest ih =>
    simp only [checkAllAddressLoop]
    by_cases hb : b = a
    · subst hb
      cases hk : hasKey (checkAllChainLoop env b chains map) b with
      | true =>
        rw [if_pos rfl]
        exact addressLoop_hasKey_mono env rest chains _ b hk
      | false =>
        rw [if_neg Bool.false_ne_true]
        exact addressLoop_hasKey_mono env rest chains _ b
          (hasKey_objSet_self _ _ _)
    · have hmem' : a ∈ rest := by
        rcases List.mem_cons.mp hmem with h | h
        · exact absurd h.symm hb
        · exact h
      cases hk : hasKey (checkAllChainLoop env b chains map) b with
      | true =>
        rw [if_pos rfl]
        exact ih _ hmem'
      | false =>
        rw [if_neg Bool.false_ne_true]
        exact ih _ hmem'

/-- C8: the batch lookup is a total function of its inputs (a per-pair lookup
failure never aborts the batch); every requested address appears in the
result, and an address for which every requested chain either threw or
returned no confirmed match is reported with the `status: "false"` entry. -/
theorem batch_lookup_false (env : Env) (addresses chainIds : List String)
    (a : String) (hmem : a ∈ addresses) :
    ((∀ c ∈ chainIds, noMatchR (env.findAllByAddress a c) = true) →
      objGet (checkAllByAddresses env addresses chainIds) a
        = some .falseEntry) ∧
    hasKey (checkAllByAddresses env addresses chainIds) a = true := by
  constructor
  · intro hnm
    exact addressLoop_false env addresses chainIds a [] hmem hnm (Or.inl rfl)
  · exact addressLoop_hasKey env addresses chainIds [] a hmem

/-- Witness for C8: `0xa` throws on every requested chain and is reported
`false`; `0xb` (which has a match on chain 1) is also present in the result. -/
theorem batch_lookup_false_witness :
    objGet (checkAllByAddresses env8 ["0xa", "0xb"] ["1", "2"]) "0xa"
      = some .falseEntry ∧
    hasKey (checkAllByAddresses env8 ["0xa", "0xb"] ["1", "2"]) "0xb" = true :=
  ⟨(batch_lookup_false env8 ["0xa", "0xb"] ["1", "2"] "0xa"
      (by decide)).1 (by decide),
   (batch_lookup_false env8 ["0xa", "0xb"] ["1", "2"] "0xb" (by decide)).2⟩

/-- Counterexample for C9: the candidate `W` has `address = some "0xabc"`, yet
a verify-validated request whose received contract omits `address`/`chainId`
overwrites them with the request's (absent) values, clearing them back to
unset. -/
theorem target_cleared_cex :
    (objGet s9.contractWrappers "W").map (fun w => w.address)
      = some (some "0xabc") ∧
    (objGet (verifyValidatedEndpoint baseEnv [⟨"W", none, none⟩]
        s9).1.contractWrappers "W").map (fun w => w.address)
      = some none := by decide

/-- The merge fold never changes a wrapper's `address`/`chainId`. -/
theorem mergeNewContracts_preserve (pending : List (String × ContractWrapper))
    (ws : List (String × ContractWrapper)) (id : String)
    (cw : ContractWrapper) (h : objGet ws id = some cw) :
    (objGet (mergeNewContracts pending ws) id).map
        (fun w => (w.address, w.chainId))
      = some (cw.address, cw.chainId) := by
  induction pending generalizing ws cw with
  | nil => simp [mergeNewContracts, h]
  | cons kv rest ih =>
    obtain ⟨k, w⟩ := kv
    by_cases hk : k = id
    · subst hk
      unfold mergeNewContracts at *
      simp only [List.foldl, h]
      exact ih _ (mergeWrapper cw w)
        (objGet_objSet_self ws k (mergeWrapper cw w))
    · unfold mergeNewContracts at *
      simp only [List.foldl]
      cases hg : objGet ws k with
      | some old =>
        simp only [hg]
        exact ih _ _ (by rw [objGet_objSet_ne _ _ _ _ hk]; exact h)
      | none =>
        simp only [hg]
        exact ih _ _ (by rw [objGet_objSet_ne _ _ _ _ hk]; exact h)

/-- Assembly (`validateContracts`) never changes a wrapper's target. -/
theorem validateContracts_preserves_target (env : Env) (s : MySession)
    (id : String) (cw : ContractWrapper)
    (h : objGet s.contractWrappers id = some cw) :
    (objGet (validateContracts env s).contractWrappers id).map
        (fun w => (w.address, w.chainId))
      = some (cw.address, cw.chainId) := by
  unfold validateContracts
  cases hc : env.checkFiles (sessionPathBuffers env s.inputFiles) with
  | error e => simp [hc, updateUnused, h]
  | ok cu =>
    simpa [hc, updateUnused] using
      mergeNewContracts_preserve (newPendingContracts cu.1)
        s.contractWrappers id cw h

/-- The Etherscan target-assignment loop never touches a wrapper whose
`address` is already (truthily) set. -/
theorem etherscanAssign_preserves_set (addr ch : String)
    (ws : List (String × ContractWrapper)) (id : String)
    (cw : ContractWrapper) (h : objGet ws id = some cw)
    (ht : truthyStr cw.address = true) :
    objGet (etherscanAssignTargets addr ch ws).1 id = some cw := by
  induction ws with
  | nil => simp [objGet] at h
  | cons kv rest ih =>
    obtain ⟨k, w⟩ := kv
    unfold etherscanAssignTargets
    by_cases hk : k = id
    · subst hk
      simp only [objGet, if_pos rfl] at h
      injection h with h
      subst h
      simp [objGet, ht]
    · simp only [objGet, if_neg hk] at h
      simp only [objGet, if_neg hk]
      exact ih h

/-- `verifyOne` never changes a wrapper's `address`/`chainId`. -/
theorem verifyOne_preserves_target (env : Env)
    (files : List (String × PathContent)) (cw : ContractWrapper) :
    (verifyOne env files cw).1.address = cw.address ∧
    (verifyOne env files cw).1.chainId = cw.chainId := by
  cases hg : isVerifiable
      { cw with contract := checkAndFetchMissing env cw.contract } with
  | false => simp [verifyOne, hg]
  | true =>
    cases hf : env.findByAddress cw.address cw.chainId with
    | cons m ms => simp [verifyOne, hg, hf, recordMatch]
    | nil =>
      cases hi : env.inject
          ⟨[cw.address], cw.chainId, checkAndFetchMissing env cw.contract⟩ with
      | error e => simp [verifyOne, hg, hf, hi, recordMatch]
      | ok m =>
        by_cases hm : m.status = some "extra-file-input-bug"
        · cases hu : env.useAllSources (checkAndFetchMissing env cw.contract)
              (sessionPathBuffers env files) with
          | error e => simp [verifyOne, hg, hf, hi, hm, hu, recordMatch]
          | ok c2 =>
            cases hi2 : env.inject ⟨[cw.address], cw.chainId, c2⟩ with
            | error e2 => simp [verifyOne, hg, hf, hi, hm, hu, hi2, recordMatch]
            | ok tm => simp [verifyOne, hg, hf, hi, hm, hu, hi2, recordMatch]
        · simp [verifyOne, hg, hf, hi, hm, recordMatch]

/-- C9 (amended): assembly and the Etherscan session path never clear a set
`address`/`chainId` (the Etherscan loop only assigns targets to wrappers whose
`address` is unset), and verification itself never touches them; the
verify-validated endpoint, however, replaces each targeted wrapper's
`address`/`chainId` with the request's values, which clears them when the
request omits them (see the counterexample). -/
theorem target_never_cleared_outside_verify_validated :
    (∀ (env : Env) (s : MySession) (id : String) (cw : ContractWrapper),
        objGet s.contractWrappers id = some cw →
        (objGet (validateContracts env s).contractWrappers id).map
            (fun w => (w.address, w.chainId))
          = some (cw.address, cw.chainId)) ∧
    (∀ (addr ch : String) (ws : List (String × ContractWrapper)) (id : String)
        (cw : ContractWrapper), objGet ws id = some cw →
        truthyStr cw.address = true →
        objGet (etherscanAssignTargets addr ch ws).1 id = some cw) ∧
    (∀ (env : Env) (files : List (String × PathContent))
        (cw : ContractWrapper),
        (verifyOne env files cw).1.address = cw.address ∧
        (verifyOne env files cw).1.chainId = cw.chainId) :=
  ⟨validateContracts_preserves_target, etherscanAssign_preserves_set,
   verifyOne_preserves_target⟩

/-- Witness for C9's amended claim at concrete sessions and wrappers. -/
theorem target_never_cleared_witness :
    (objGet (validateContracts envFail s7).contractWrappers "M").map
        (fun w => (w.address, w.chainId))
      = some (some "0xabc", some "1") ∧
    objGet (etherscanAssignTargets "0xdef" "5" [("M", cwA)]).1 "M"
      = some cwA ∧
    ((verifyOne envC1 [] cwA).1.address = cwA.address ∧
     (verifyOne envC1 [] cwA).1.chainId = cwA.chainId) :=
  ⟨target_never_cleared_outside_verify_validated.1 envFail s7 "M" cwA
      (by decide),
   target_never_cleared_outside_verify_validated.2.1 "0xdef" "5"
      [("M", cwA)] "M" cwA (by decide) (by decide),
   target_never_cleared_outside_verify_validated.2.2 envC1 [] cwA⟩

end Sourcify
